import Mathlib

/-!
Verification of the client-side synchronization layer of the WillwareMobileAttenance
app: the TTL cache (`src/services/cacheManager.ts`), the offline mutation queue
(`src/services/offlineManager.ts`), the fast-path identity cache
(`src/utils/authOptimizer.ts`), and the attendance reconciler
(`src/app/(tabs)/index.tsx` together with `src/hooks/useDashboardPreloader.ts`).

The durable key-value store (AsyncStorage) is modelled as an association list of
string keys to JSON values in storage scan order: a value written with
`JSON.stringify` and read back with `JSON.parse` is modelled as the JSON tree
itself (round-tripping through the concrete string syntax is a property of the
collaborator, not of this code).  Overwriting an existing key keeps its position
in the scan order and a fresh key is appended at the end, matching the
"oldest-by-insertion" FIFO scan order that the eviction code relies on.
All asynchronous code is single-threaded and cooperative, so each exported
operation is modelled as a pure state-passing function.
-/

set_option autoImplicit false

namespace Willware

/-- A JSON value, the common currency of every `JSON.stringify`/`JSON.parse`
pair in the source.  Numbers are modelled as integers: every number this layer
stores (timestamps, TTLs, retry counts) is integral. -/
inductive Json where
  | null
  | bool (b : Bool)
  | num (n : Int)
  | str (s : String)
  | arr (elems : List Json)
  | obj (fields : List (String × Json))

/-- The durable key-value store: keys to JSON values, in storage scan order. -/
abbrev Store := List (String × Json)

/-- `AsyncStorage.getItem`: the value stored under `k`, or JS `null` (`none`). -/
def lookupStore : Store → String → Option Json
  | [], _ => none
  | (k', v) :: t, k => if k' = k then some v else lookupStore t k

/-- `AsyncStorage.setItem`: overwrite in place, or append a fresh key at the
end of the scan order. -/
def setItem : Store → String → Json → Store
  | [], k, v => [(k, v)]
  | (k', v') :: t, k, v =>
    if k' = k then (k, v) :: t else (k', v') :: setItem t k v

/-- `AsyncStorage.removeItem`. -/
def removeKey : Store → String → Store
  | [], _ => []
  | (k', v) :: t, k =>
    if k' = k then removeKey t k else (k', v) :: removeKey t k

/-- `AsyncStorage.multiRemove`: removes every listed key. -/
def multiRemoveKeys : Store → List String → Store
  | [], _ => []
  | (k, v) :: t, ks =>
    if k ∈ ks then multiRemoveKeys t ks else (k, v) :: multiRemoveKeys t ks

/-- `a.startsWith b` on character lists: `leadsList pre l` holds when `pre` is
an initial segment of `l`. -/
def leadsList : List Char → List Char → Bool
  | [], _ => true
  | _ :: _, [] => false
  | a :: as, b :: bs => a = b && leadsList as bs

/-- `key.startsWith('cache_')`, the namespace test used by the cache. -/
def inCacheNs (k : String) : Bool :=
  leadsList "cache_".data k.data

/-- `hay.includes(needle)` on character lists. -/
def hasSub : List Char → List Char → Bool
  | hay, needle =>
    leadsList needle hay ||
      (match hay with
       | [] => false
       | _ :: t => hasSub t needle)

/-- `s.includes(pat)`, the substring test used by `invalidatePattern`. -/
def strIncludes (s pat : String) : Bool :=
  hasSub s.data pat.data

namespace CacheManager

/-- The `CacheConfig` of `CacheManager`: `defaultTTL` 5 minutes, `maxSize` 50. -/
structure CacheConfig where
  defaultTTL : Int
  maxSize : Nat

/-- The configured instance: `{ defaultTTL: 5 * 60 * 1000, maxSize: 50 }`. -/
def cacheConfig : CacheConfig := ⟨5 * 60 * 1000, 50⟩

/-- `CacheItem<T>`: `{ data, timestamp, expiryTime }`. -/
structure CacheItem where
  data : Json
  timestamp : Int
  expiryTime : Int

/-- The JSON shape produced by `JSON.stringify` of a `CacheItem`. -/
def encodeCacheItem (c : CacheItem) : Json :=
  .obj [("data", c.data), ("timestamp", .num c.timestamp),
        ("expiryTime", .num c.expiryTime)]

/-- Reading a `CacheItem` back out of a stored JSON value.  Every entry this
program writes under the cache namespace has exactly the encoded shape, so a
value of any other shape is treated as a miss (the fail-open path for corrupted
entries). -/
def decodeCacheItem : Json → Option CacheItem
  | .obj [("data", d), ("timestamp", .num t), ("expiryTime", .num e)] =>
    some ⟨d, t, e⟩
  | _ => none

/-- `getCacheKey`: the `cache_` namespacing of user keys. -/
def cacheKey (k : String) : String := "cache_" ++ k

/-- The namespaced keys of a store in scan order: `getAllKeys` followed by the
`startsWith('cache_')` filter. -/
def cacheKeysOf (s : Store) : List String :=
  (s.map Prod.fst).filter inCacheNs

/-- `ttlMs || this.config.defaultTTL`: an absent ttl falls back to the default,
and so does `0`, which is falsy in JS. -/
def effectiveTTL : Option Int → Int
  | some t => if t = 0 then cacheConfig.defaultTTL else t
  | none => cacheConfig.defaultTTL

/-- The per-key body of the cleanup loop: re-read the key and delete it when
its `expiryTime` has passed.  A shape that does not decode is kept, matching
the JS comparison `Date.now() > undefined` being false. -/
def expireStep (s : Store) (k : String) (now : Int) : Store :=
  match lookupStore s k with
  | some j =>
    match decodeCacheItem j with
    | some c => if now > c.expiryTime then removeKey s k else s
    | none => s
  | none => s

/-- The `for` loop of `cleanupExpiredItems` over the namespaced keys. -/
def removeExpiredPass (s : Store) (ks : List String) (now : Int) : Store :=
  match ks with
  | [] => s
  | k :: t => removeExpiredPass (expireStep s k now) t now

/-- `cleanupExpiredItems`: delete expired namespaced entries, then, if the
namespaced key count (taken before the expiry deletions) exceeds `maxSize`,
delete the oldest-by-scan-order excess. -/
def cleanupExpiredItems (s : Store) (now : Int) : Store :=
  let ks := cacheKeysOf s
  let s1 := removeExpiredPass s ks now
  if cacheConfig.maxSize < ks.length then
    multiRemoveKeys s1 (ks.take (ks.length - cacheConfig.maxSize))
  else
    s1

/-- `set(key, data, ttlMs?)`: persist `{data, timestamp: now, expiryTime:
now + ttl}` under the namespaced key, then run the best-effort cleanup. -/
def set (s : Store) (key : String) (data : Json) (ttl : Option Int)
    (now : Int) : Store :=
  cleanupExpiredItems
    (setItem s (cacheKey key) (encodeCacheItem ⟨data, now, now + effectiveTTL ttl⟩))
    now

/-- `get(key)`: read and decode the namespaced entry; if `now > expiryTime`,
delete it and return null; otherwise return the stored data.  Returns the
result together with the store after any deletion. -/
def get (s : Store) (key : String) (now : Int) : Option Json × Store :=
  match lookupStore s (cacheKey key) with
  | none => (none, s)
  | some j =>
    match decodeCacheItem j with
    | none => (none, s)
    | some c =>
      if now > c.expiryTime then (none, removeKey s (cacheKey key))
      else (some c.data, s)

/-- `remove(key)`. -/
def remove (s : Store) (key : String) : Store :=
  removeKey s (cacheKey key)

/-- `clear()`: remove every key in the `cache_` namespace. -/
def clear (s : Store) : Store :=
  multiRemoveKeys s ((s.map Prod.fst).filter inCacheNs)

/-- Is a JSON value the JS `null`?  `get` hands its caller `cacheItem.data`
directly, so a stored JSON null is indistinguishable from a miss in the
caller's `cached !== null` test. -/
def jsNull : Json → Bool
  | .null => true
  | _ => false

/-- `getOrSet(key, fetchFn, ttlMs?)`: serve the cached value when `get` yields
a non-null result, otherwise invoke `fetchFn` (modelled as its outcome
`compute`), store a successful result, and return it.  The third component
counts the invocations of `fetchFn` (a thrown error propagates before `set`
runs). -/
def getOrSet (s : Store) (key : String) (compute : Except String Json)
    (ttl : Option Int) (now : Int) : Except String Json × Store × Nat :=
  match get s key now with
  | (some v, s1) =>
    if jsNull v then
      match compute with
      | .ok data => (.ok data, set s1 key data ttl now, 1)
      | .error e => (.error e, s1, 1)
    else
      (.ok v, s1, 0)
  | (none, s1) =>
    match compute with
    | .ok data => (.ok data, set s1 key data ttl now, 1)
    | .error e => (.error e, s1, 1)

/-- `invalidatePattern(pattern)`: remove every namespaced key containing the
pattern. -/
def invalidatePattern (s : Store) (pat : String) : Store :=
  multiRemoveKeys s
    ((s.map Prod.fst).filter (fun k => inCacheNs k && strIncludes k pat))

/-- The spec's notion of a valid cache entry for `key`: one is present (it
decodes to a `CacheItem`) and unexpired at `now`. -/
def ValidEntry (s : Store) (key : String) (now : Int) : Prop :=
  ∃ c : CacheItem,
    lookupStore s (cacheKey key) = some (encodeCacheItem c) ∧ now ≤ c.expiryTime

/-- A valid cache entry whose stored value is not the JSON null (a stored null
is indistinguishable from a miss on the `cached !== null` path). -/
def ValidNonNullEntry (s : Store) (key : String) (now : Int) : Prop :=
  ∃ c : CacheItem,
    lookupStore s (cacheKey key) = some (encodeCacheItem c) ∧
      now ≤ c.expiryTime ∧ jsNull c.data = false

end CacheManager

namespace OfflineManager

/-- The HTTP verbs the queue can replay. -/
inductive HttpMethod where
  | get
  | post
  | put
  | delete

/-- `OfflineQueueItem`: `{ id, endpoint, method, data?, timestamp, retryCount }`. -/
structure QueueItem where
  id : String
  endpoint : String
  method : HttpMethod
  payload : Option Json
  timestamp : Int
  retryCount : Nat

/-- The manager's in-memory state: the queue and the re-entrancy flag.  The
durable mirror under the `offline_queue` key holds the serialized queue and is
rewritten after every queue mutation. -/
structure ManagerState where
  queue : List QueueItem
  isProcessing : Bool

/-- `maxRetries = 3`. -/
def maxRetries : Nat := 3

/-- `addToQueue`: append a fresh item with `retryCount` 0. -/
def addToQueue (st : ManagerState) (id endpoint : String) (method : HttpMethod)
    (payload : Option Json) (now : Int) : ManagerState :=
  { st with queue := st.queue ++ [⟨id, endpoint, method, payload, now, 0⟩] }

/-- One pass of the `for` loop over the queue snapshot.  Each item is attempted
once: on success it is marked processed; on failure its `retryCount` is
incremented in place and, when the count has reached `maxRetries`, the item is
marked processed anyway (abandoned).  The pass ends with
`queue.filter(item => !processedItems.includes(item.id))`, which keeps exactly
the unmarked items (ids are unique by construction: time + random).  The
second component counts executor invocations. -/
def processItems (items : List QueueItem) (exec : QueueItem → Bool) :
    List QueueItem × Nat :=
  match items with
  | [] => ([], 0)
  | it :: t =>
    let rest := processItems t exec
    if exec it then
      (rest.1, rest.2 + 1)
    else
      let it' := { it with retryCount := it.retryCount + 1 }
      if maxRetries ≤ it'.retryCount then (rest.1, rest.2 + 1)
      else (it' :: rest.1, rest.2 + 1)

/-- `processQueue(apiClient)`: return immediately when already processing or
when the queue is empty; otherwise run one pass and persist the filtered
queue.  In the single-threaded model the `isProcessing` flag is back to false
when the call completes. -/
def processQueue (st : ManagerState) (exec : QueueItem → Bool) :
    ManagerState × Nat :=
  if st.isProcessing || st.queue.isEmpty then (st, 0)
  else
    let pass := processItems st.queue exec
    (⟨pass.1, false⟩, pass.2)

/-- `getQueueLength()`. -/
def getQueueLength (st : ManagerState) : Nat :=
  st.queue.length

end OfflineManager

namespace AuthOptimizer

/-- The slice of the stored raw user profile (`willware_user_data`) that
`backgroundAuthVerification` needs: the employee id interpolated into the
`/view/{id}` request. -/
structure StoredUserData where
  userId : String

/-- The outcome of the verification `fetch` against `/view/{id}`: either an
HTTP response with its `ok` flag, or a thrown network error (connection
failure, or the 5-second `AbortSignal.timeout` firing). -/
inductive VerifyFetchOutcome where
  | response (ok : Bool)
  | networkFailure
deriving DecidableEq

/-- `backgroundAuthVerification(token)`: without a stored user profile it
returns false before any network activity; otherwise it returns `response.ok`,
and any thrown fetch error is caught and yields true (fail-open). -/
def backgroundAuthVerification (storedUser : Option StoredUserData)
    (outcome : VerifyFetchOutcome) : Bool :=
  match storedUser with
  | none => false
  | some _ =>
    match outcome with
    | .response ok => ok
    | .networkFailure => true

end AuthOptimizer

namespace Dashboard

/-- JS truthiness of a JSON value (`!!v`). -/
def jsTruthy : Json → Bool
  | .null => false
  | .bool b => b
  | .num n => n ≠ 0
  | .str s => s ≠ ""
  | .arr _ => true
  | .obj _ => true

/-- Truthiness of an optional field, `none` standing for JS `undefined`. -/
def jsTruthyOpt : Option Json → Bool
  | none => false
  | some j => jsTruthy j

/-- JS property access `j.field`: `none` stands for `undefined` (absent field
or access on a non-object). -/
def jsGet (j : Json) (field : String) : Option Json :=
  match j with
  | .obj fields => lookupStore fields field
  | _ => none

/-- A user-visible notification raised during `handleCheckInOut`.  The error
case carries the raw error; the rendered text (`handleApiError(...).message`)
is presentation, derived from it. -/
inductive Toast where
  | success (message : Json)
  | error (message : String)

/-- The dashboard's mutable state relevant to attendance: the durable store
and the displayed `dashboardData.employeeDetails` (`none` = JS null). -/
structure DashState where
  store : Store
  employeeDetails : Option Json

/-- The remote API as an oracle: the check-in/check-out mutation outcome per
1-based attempt number, and the outcomes of the `/view/{id}` re-fetch and of
the quote fetch issued by the preloader. -/
structure ServerModel where
  checkIn : Nat → Except String Json
  checkOut : Nat → Except String Json
  view : Except String Json
  quote : Except String Json

/-- The observable outcome of one `handleCheckInOut` invocation: the resulting
state, the notifications shown, and how many mutation requests were submitted
to the server. -/
structure CheckResult where
  state : DashState
  toasts : List Toast
  submissions : Nat

/-- The loop of `withRetry(operation, maxRetries)` in
`src/utils/errorHandling.ts`, with an attempt counter: try `op attempt`; on
failure at `attempt === maxRetries` rethrow, otherwise back off and retry.
The fuel equals `maxRetries` at entry, so the 0 case is unreachable for
`maxRetries ≥ 1`.  The second component counts executed attempts. -/
def retryLoop (op : Nat → Except String Json) (maxRetries attempt : Nat) :
    Nat → Except String Json × Nat
  | 0 => (.error "retry loop exhausted", 0)
  | fuel + 1 =>
    match op attempt with
    | .ok v => (.ok v, 1)
    | .error e =>
      if attempt = maxRetries then (.error e, 1)
      else
        let r := retryLoop op maxRetries (attempt + 1) fuel
        (r.1, r.2 + 1)

/-- `withRetry(operation, maxRetries)` starting at attempt 1. -/
def withRetry (op : Nat → Except String Json) (maxRetries : Nat) :
    Except String Json × Nat :=
  retryLoop op maxRetries 1 maxRetries

/-- `log.date === today` for one timelog element. -/
def dateMatches (log : Json) (today : String) : Bool :=
  match jsGet log "date" with
  | some (.str s) => s == today
  | _ => false

/-- `employeeDetails?.timelog?.find(log => log.date === today)`: the
`todayAttendanceRecord` memo of the dashboard. -/
def findTodayRecord (details : Option Json) (today : String) : Option Json :=
  match details with
  | none => none
  | some d =>
    match jsGet d "timelog" with
    | some (.arr logs) => logs.find? (fun log => dateMatches log today)
    | _ => none

/-- `!!(todayAttendanceRecord && todayAttendanceRecord.checkin &&
!todayAttendanceRecord.checkout)`. -/
def isCurrentlyCheckedIn (details : Option Json) (today : String) : Bool :=
  match findTodayRecord details today with
  | some r => jsTruthyOpt (jsGet r "checkin") && !(jsTruthyOpt (jsGet r "checkout"))
  | none => false

/-- Collapse a settled fetch outcome the way the preloader does:
`status === 'fulfilled' ? value : null`. -/
def exceptToOption : Except String Json → Option Json
  | .ok j => some j
  | .error _ => none

/-- `preloadDashboardData(empId, true)` from `useDashboardPreloader`: the
manual-refresh path taken after a check-in/out (the 30-second rate limit is
bypassed).  The employee details and the quote are fetched through
`cache.getOrSet`; the two fetches run under `Promise.allSettled` on disjoint
keys and are sequenced here employee-first.  The displayed employee details
become the settled employee outcome.  The employee entry is requested with
ttl 0, which `set` coerces to the 5-minute default (`ttlMs || defaultTTL`). -/
def preloadDashboardData (uid : String) (srv : ServerModel) (store : Store)
    (now : Int) : Store × Option Json :=
  let emp := CacheManager.getOrSet store ("employee_view_" ++ uid) srv.view
    (some 0) now
  let quote := CacheManager.getOrSet emp.2.1 "daily_quote" srv.quote
    (some (4 * 60 * 60 * 1000)) now
  (quote.2.1, exceptToOption emp.1)

/-- `forceRefreshAfterCheckInOut()`: drop the employee's cached view, then
re-fetch through the manual-refresh preload. -/
def forceRefreshAfterCheckInOut (uid : String) (srv : ServerModel)
    (st : DashState) (now : Int) : DashState :=
  let store1 := CacheManager.remove st.store ("employee_view_" ++ uid)
  let r := preloadDashboardData uid srv store1 now
  ⟨r.1, r.2⟩

/-- `handleCheckInOut` from `src/app/(tabs)/index.tsx`: bail out without a
user; otherwise derive the action from today's displayed record, submit it
under `withRetry(op, 2)`, and on a response with a truthy `message` show it
and force a re-fetch of the employee view; every failure path surfaces an
error toast and leaves the state untouched.  `startLoading`/`stopLoading`
only drive the loading overlay and are not modelled; the function consults no
in-flight guard. -/
def handleCheckInOut (user : Option String) (today : String)
    (srv : ServerModel) (st : DashState) (now : Int) : CheckResult :=
  match user with
  | none => ⟨st, [.error "User not found. Please log in again."], 0⟩
  | some uid =>
    let isCheckedIn := isCurrentlyCheckedIn st.employeeDetails today
    let op := if isCheckedIn then srv.checkOut else srv.checkIn
    let r := withRetry op 2
    match r.1 with
    | .ok response =>
      if jsTruthy response && jsTruthyOpt (jsGet response "message") then
        ⟨forceRefreshAfterCheckInOut uid srv st now,
         [.success ((jsGet response "message").getD .null)], r.2⟩
      else
        ⟨st, [.error "Invalid response from server"], r.2⟩
    | .error e => ⟨st, [.error e], r.2⟩

/-- Two taps of the check-in/out button where the second lands while the first
request is still pending.  `handleCheckInOut` performs no state write before
its first await (its only writes happen after the mutation response), and it
consults no in-flight flag, so the second invocation runs from the same
observed state; the total is the number of mutation submissions reaching the
server. -/
def twoTapSubmissions (user : Option String) (today : String)
    (srv : ServerModel) (st : DashState) (now : Int) : Nat :=
  (handleCheckInOut user today srv st now).submissions +
    (handleCheckInOut user today srv st now).submissions

end Dashboard

/-! Concrete fixtures used by counterexamples and witnesses. -/

/-- A store holding one well-formed cache entry for key `k` (value `"v"`,
written at 0, expiring at 1000), as left by `set("k", "v", 1000)` at time 0
into an empty store. -/
def exBoundary : Store :=
  [(CacheManager.cacheKey "k", CacheManager.encodeCacheItem ⟨.str "v", 0, 1000⟩)]

/-- A store holding one unexpired cache entry for key `k` whose stored value
is the JSON null, as left by `set("k", null)`. -/
def exNull : Store :=
  [(CacheManager.cacheKey "k", CacheManager.encodeCacheItem ⟨.null, 0, 100⟩)]

/-- A store holding 51 unexpired cache entries whose oldest (first in scan
order) is the entry for key `k0`. -/
def exBig : Store :=
  (CacheManager.cacheKey "k0", CacheManager.encodeCacheItem ⟨.str "old", 0, 1000000⟩) ::
    (List.range 50).map (fun i =>
      (CacheManager.cacheKey ("a" ++ toString i),
       CacheManager.encodeCacheItem ⟨.str "x", 0, 1000000⟩))

/-- A cache already at its 50-entry maximum: 50 unexpired namespaced
entries. -/
def exFull : Store :=
  (List.range 50).map (fun i =>
    (CacheManager.cacheKey ("a" ++ toString i),
     CacheManager.encodeCacheItem ⟨.str "x", 0, 1000000⟩))

/-- A store holding the offline mutation queue (`offline_queue`), the identity
cache record (`willware_auth_cache`), and one namespaced cache entry mentioning
employee `emp1`. -/
def exFrame : Store :=
  [("offline_queue", .arr []),
   ("willware_auth_cache", .obj [("token", .str "t")]),
   (CacheManager.cacheKey "employee_view_emp1",
    CacheManager.encodeCacheItem ⟨.obj [], 0, 1000⟩)]

/-- A server on which every mutation succeeds at the first attempt with a
response carrying a message, and the re-fetched employee view is a timelog
with today's record checked in. -/
def srvOk : Dashboard.ServerModel :=
  ⟨fun _ => .ok (.obj [("message", .str "Checked in")]),
   fun _ => .ok (.obj [("message", .str "Checked out")]),
   .ok (.obj [("timelog", .arr [.obj [("date", .str "28/10/2025"),
     ("checkin", .str "2025-10-28T09:09:55.785Z")]])]),
   .ok .null⟩

/-- A server on which every request fails with a network error. -/
def srvDown : Dashboard.ServerModel :=
  ⟨fun _ => .error "Network request failed",
   fun _ => .error "Network request failed",
   .error "Network request failed",
   .error "Network request failed"⟩

/-! Helper lemmas about the store primitives. -/

theorem lookupStore_removeKey_self (s : Store) (k : String) :
    lookupStore (removeKey s k) k = none := by
  induction s with
  | nil => rfl
  | cons p t ih =>
    obtain ⟨a, b⟩ := p
    by_cases ha : a = k
    · simpa [removeKey, ha] using ih
    · simp [removeKey, lookupStore, ha, ih]

theorem lookupStore_removeKey_ne (s : Store) (k k' : String) (h : k' ≠ k) :
    lookupStore (removeKey s k) k' = lookupStore s k' := by
  induction s with
  | nil => rfl
  | cons p t ih =>
    obtain ⟨a, b⟩ := p
    by_cases ha : a = k
    · subst ha
      have ha' : ¬ a = k' := fun he => h he.symm
      simp [removeKey, lookupStore, ha', ih]
    · by_cases hak : a = k'
      · simp [removeKey, lookupStore, ha, hak, h]
      · simp [removeKey, lookupStore, ha, hak, ih]

theorem lookupStore_multiRemoveKeys (s : Store) (ks : List String) (k : String)
    (h : k ∉ ks) :
    lookupStore (multiRemoveKeys s ks) k = lookupStore s k := by
  induction s with
  | nil => rfl
  | cons p t ih =>
    obtain ⟨a, b⟩ := p
    by_cases ha : a ∈ ks
    · have hak : ¬ a = k := fun he => h (he ▸ ha)
      simp [multiRemoveKeys, lookupStore, ha, hak, ih]
    · by_cases hak : a = k
      · simp [multiRemoveKeys, lookupStore, ha, hak, h]
      · simp [multiRemoveKeys, lookupStore, ha, hak, ih]

theorem lookupStore_setItem_self (s : Store) (k : String) (v : Json) :
    lookupStore (setItem s k v) k = some v := by
  induction s with
  | nil => simp [setItem, lookupStore]
  | cons p t ih =>
    obtain ⟨a, b⟩ := p
    by_cases ha : a = k
    · simp [setItem, lookupStore, ha]
    · simp [setItem, lookupStore, ha, ih]

theorem removeKey_sublist (s : Store) (k : String) : (removeKey s k).Sublist s := by
  induction s with
  | nil => simp [removeKey]
  | cons p t ih =>
    obtain ⟨a, b⟩ := p
    by_cases ha : a = k
    · simp only [removeKey, ha, if_pos]
      exact ih.trans (List.sublist_cons_self _ _)
    · simp only [removeKey, ha, if_neg, not_false_iff]
      exact ih.cons₂ _

theorem expireStep_sublist (s : Store) (k : String) (now : Int) :
    (CacheManager.expireStep s k now).Sublist s := by
  unfold CacheManager.expireStep
  split
  · split
    · split
      · exact removeKey_sublist s k
      · exact List.Sublist.refl s
    · exact List.Sublist.refl s
  · exact List.Sublist.refl s

theorem removeExpiredPass_sublist (ks : List String) (s : Store) (now : Int) :
    (CacheManager.removeExpiredPass s ks now).Sublist s := by
  induction ks generalizing s with
  | nil => exact List.Sublist.refl s
  | cons k t ih =>
    exact (ih _).trans (expireStep_sublist s k now)

theorem cacheKeysOf_sublist {s u : Store} (h : s.Sublist u) :
    (CacheManager.cacheKeysOf s).Sublist (CacheManager.cacheKeysOf u) :=
  (h.map Prod.fst).filter _

theorem map_fst_multiRemoveKeys (s : Store) (ks : List String) :
    (multiRemoveKeys s ks).map Prod.fst =
      (s.map Prod.fst).filter (fun k => !decide (k ∈ ks)) := by
  induction s with
  | nil => rfl
  | cons p t ih =>
    obtain ⟨a, b⟩ := p
    by_cases ha : a ∈ ks
    · simp [multiRemoveKeys, ha, ih, List.filter_cons]
    · simp [multiRemoveKeys, ha, ih, List.filter_cons]

theorem cacheKeysOf_multiRemoveKeys (s : Store) (ks : List String) :
    CacheManager.cacheKeysOf (multiRemoveKeys s ks) =
      (CacheManager.cacheKeysOf s).filter (fun k => !decide (k ∈ ks)) := by
  unfold CacheManager.cacheKeysOf
  rw [map_fst_multiRemoveKeys, List.filter_comm]

theorem filter_not_mem_self (P : List String) :
    P.filter (fun k => !decide (k ∈ P)) = [] := by
  rw [List.filter_eq_nil_iff]
  intro a ha
  simp [ha]

theorem decodeCacheItem_encodeCacheItem (c : CacheManager.CacheItem) :
    CacheManager.decodeCacheItem (CacheManager.encodeCacheItem c) = some c := rfl

theorem eq_encodeCacheItem_of_decode {j : Json} {c : CacheManager.CacheItem}
    (h : CacheManager.decodeCacheItem j = some c) :
    j = CacheManager.encodeCacheItem c := by
  unfold CacheManager.decodeCacheItem at h
  split at h
  · rename_i d t e
    injection h with h
    subst h
    rfl
  · exact absurd h (by simp)

theorem lookupStore_expireStep (s : Store) (k0 k : String) (j : Json)
    (c : CacheManager.CacheItem) (now : Int)
    (hl : lookupStore s k = some j)
    (hd : CacheManager.decodeCacheItem j = some c)
    (he : ¬ now > c.expiryTime) :
    lookupStore (CacheManager.expireStep s k0 now) k = some j := by
  unfold CacheManager.expireStep
  split
  · split
    · split
      · rename_i x1 jv heqv x2 c0 heqc hexp
        by_cases hk : k0 = k
        · subst hk
          rw [hl] at heqv
          injection heqv with heqv
          subst heqv
          rw [hd] at heqc
          injection heqc with heqc
          subst heqc
          exact absurd hexp he
        · rw [lookupStore_removeKey_ne s k0 k (fun he' => hk he'.symm)]
          exact hl
      · exact hl
    · exact hl
  · exact hl

theorem lookupStore_removeExpiredPass (ks : List String) (s : Store)
    (k : String) (j : Json) (c : CacheManager.CacheItem) (now : Int)
    (hl : lookupStore s k = some j)
    (hd : CacheManager.decodeCacheItem j = some c)
    (he : ¬ now > c.expiryTime) :
    lookupStore (CacheManager.removeExpiredPass s ks now) k = some j := by
  induction ks generalizing s with
  | nil => exact hl
  | cons k0 t ih =>
    exact ih _ (lookupStore_expireStep s k0 k j c now hl hd he)

theorem cleanup_cacheKeys_length_le (s : Store) (now : Int) :
    (CacheManager.cacheKeysOf (CacheManager.cleanupExpiredItems s now)).length ≤
      CacheManager.cacheConfig.maxSize := by
  simp only [CacheManager.cleanupExpiredItems]
  by_cases hlen :
      CacheManager.cacheConfig.maxSize < (CacheManager.cacheKeysOf s).length
  · rw [if_pos hlen, cacheKeysOf_multiRemoveKeys]
    set ks := CacheManager.cacheKeysOf s with hks
    set m := ks.length - CacheManager.cacheConfig.maxSize with hm
    have hsub :
        (CacheManager.cacheKeysOf (CacheManager.removeExpiredPass s ks now)).Sublist ks :=
      cacheKeysOf_sublist (removeExpiredPass_sublist ks s now)
    have h2 := (hsub.filter (fun k => !decide (k ∈ ks.take m))).length_le
    have h3 :
        ((ks.take m ++ ks.drop m).filter (fun k => !decide (k ∈ ks.take m))) =
          (ks.take m).filter (fun k => !decide (k ∈ ks.take m)) ++
            (ks.drop m).filter (fun k => !decide (k ∈ ks.take m)) :=
      List.filter_append _ _
    rw [List.take_append_drop] at h3
    rw [h3, filter_not_mem_self, List.nil_append] at h2
    have h4 := List.length_filter_le (fun k => !decide (k ∈ ks.take m)) (ks.drop m)
    have h5 := List.length_drop m ks
    omega
  · rw [if_neg hlen]
    have h1 :=
      (cacheKeysOf_sublist (removeExpiredPass_sublist
        (CacheManager.cacheKeysOf s) s now)).length_le
    omega

/-! Claim theorems. -/

/-- C2, counterexample: the claim says `get` called at `expiresAt` returns
null and removes the entry, but the code's expiry test is `now > expiryTime`,
so at `now = expiresAt = 1000` the entry `{value := "v", storedAt := 0,
expiresAt := 1000}` is still served and nothing is removed. -/
theorem get_at_expiry_returns_value_counterexample :
    (CacheManager.get exBoundary "k" 1000).1 = some (Json.str "v") ∧
      (CacheManager.get exBoundary "k" 1000).2 = exBoundary :=
  ⟨rfl, rfl⟩

/-- C2, amended: for every cached entry, `get(key)` returns the stored value
iff it is called at or before the entry's `expiresAt` (leaving the store
untouched); called strictly after `expiresAt` it returns null and the entry is
removed from the store. -/
theorem get_nonnull_iff_at_or_before_expiry (s : Store) (key : String)
    (c : CacheManager.CacheItem) (now : Int)
    (h : lookupStore s (CacheManager.cacheKey key) =
      some (CacheManager.encodeCacheItem c)) :
    (now ≤ c.expiryTime →
      CacheManager.get s key now = (some c.data, s)) ∧
    (c.expiryTime < now →
      (CacheManager.get s key now).1 = none ∧
      lookupStore (CacheManager.get s key now).2 (CacheManager.cacheKey key) =
        none) := by
  constructor
  · intro hle
    simp only [CacheManager.get, h, decodeCacheItem_encodeCacheItem]
    rw [if_neg (by omega : ¬ now > c.expiryTime)]
  · intro hlt
    simp only [CacheManager.get, h, decodeCacheItem_encodeCacheItem]
    rw [if_pos (by omega : now > c.expiryTime)]
    exact ⟨rfl, lookupStore_removeKey_self _ _⟩

/-- C2, witness: the amended theorem evaluated on the one-entry store at
time 5 (before expiry) returns the stored `"v"`. -/
theorem get_nonnull_iff_at_or_before_expiry_witness :
    CacheManager.get exBoundary "k" 5 = (some (Json.str "v"), exBoundary) :=
  (get_nonnull_iff_at_or_before_expiry exBoundary "k" ⟨.str "v", 0, 1000⟩ 5
    rfl).1 (by decide)

/-- C7: after every completed `set`, the number of surviving namespaced cache
entries in the durable store is at most the configured maximum
(`maxSize = 50`) — for any prior store contents, key, value, ttl and time.
In particular a cache that 60 entries were inserted into scans to at most 50
live entries. -/
theorem cache_size_bounded_after_set (s : Store) (key : String) (data : Json)
    (ttl : Option Int) (now : Int) :
    (CacheManager.cacheKeysOf (CacheManager.set s key data ttl now)).length ≤
      CacheManager.cacheConfig.maxSize :=
  cleanup_cacheKeys_length_le _ now

/-- C8, counterexample: a present, unexpired entry whose stored value is the
JSON null (as left by `set("k", null)`) is a valid cache entry in the claim's
sense, yet `getOrSet` invokes `computeFn` once on it, because `get` hands the
stored null to the `cached !== null` test. -/
theorem getOrSet_computes_despite_valid_null_entry :
    CacheManager.ValidEntry exNull "k" 50 ∧
      (CacheManager.getOrSet exNull "k" (Except.ok (Json.str "fresh"))
        none 50).2.2 = 1 :=
  ⟨⟨⟨.null, 0, 100⟩, rfl, by decide⟩, rfl⟩

/-- C8, amended: for every call to `getOrSet(key, computeFn, ttlMs)` where
`computeFn` succeeds, `computeFn` is invoked exactly 0 times if a valid
(present and unexpired) cache entry whose stored value is non-null exists for
`key`, and exactly 1 time otherwise (a stored null is indistinguishable from a
miss). -/
theorem getOrSet_compute_count (s : Store) (key : String) (v : Json)
    (ttl : Option Int) (now : Int) :
    (CacheManager.ValidNonNullEntry s key now →
      (CacheManager.getOrSet s key (Except.ok v) ttl now).2.2 = 0) ∧
    (¬ CacheManager.ValidNonNullEntry s key now →
      (CacheManager.getOrSet s key (Except.ok v) ttl now).2.2 = 1) := by
  constructor
  · rintro ⟨c, hc, hle, hnn⟩
    simp only [CacheManager.getOrSet, CacheManager.get, hc,
      decodeCacheItem_encodeCacheItem]
    rw [if_neg (by omega : ¬ now > c.expiryTime)]
    simp [hnn]
  · intro hnv
    simp only [CacheManager.getOrSet, CacheManager.get]
    cases hl : lookupStore s (CacheManager.cacheKey key) with
    | none => rfl
    | some j =>
      cases hd : CacheManager.decodeCacheItem j with
      | none => simp [hd]
      | some c =>
        by_cases hexp : now > c.expiryTime
        · simp [hd, hexp]
        · cases hjn : CacheManager.jsNull c.data with
          | true => simp [hd, hexp, hjn]
          | false =>
            exact absurd ⟨c, by rw [hl, eq_encodeCacheItem_of_decode hd],
              by omega, hjn⟩ hnv

/-- C8, witness: the amended theorem evaluated on a store holding an
unexpired non-null entry: `computeFn` runs zero times. -/
theorem getOrSet_compute_count_witness :
    (CacheManager.getOrSet exBoundary "k" (Except.ok (Json.str "fresh"))
      none 5).2.2 = 0 :=
  (getOrSet_compute_count exBoundary "k" (Json.str "fresh") none 5).1
    ⟨⟨.str "v", 0, 1000⟩, rfl, by decide, rfl⟩

/-- C9, counterexample: on a store already holding 51 unexpired namespaced
entries whose oldest is the entry for `k0`, `set("k0", "new", 1000)` at time 0
triggers the size cleanup, which computes the excess from the pre-cleanup key
count and deletes the oldest scan-order key — the entry just written.  The
immediately following `get("k0")`, well before the 1000 ms expiry, returns
null instead of `"new"`. -/
theorem set_get_roundtrip_eviction_counterexample :
    (0 : Int) < 0 + CacheManager.effectiveTTL (some 1000) ∧
      (CacheManager.get
        (CacheManager.set exBig "k0" (Json.str "new") (some 1000) 0)
        "k0" 0).1 = none :=
  ⟨by decide, rfl⟩

/-- C9, amended: `set(key, value)` followed immediately by `get(key)` before
expiry returns exactly the value that was stored — `set` completing (cleanup
included) before its caller resumes — provided the size cleanup does not
select the key's entry for eviction, i.e. the written key is not among the
oldest over-50 excess of the post-write scan order (when at most 50
namespaced entries remain, that excess is empty and the proviso holds
vacuously; a fresh key is appended last and also survives). -/
theorem set_get_roundtrip (s : Store) (key : String) (v : Json)
    (ttl : Option Int) (t0 t1 : Int)
    (hsurv : CacheManager.cacheKey key ∉
      (CacheManager.cacheKeysOf (setItem s (CacheManager.cacheKey key)
        (CacheManager.encodeCacheItem
          ⟨v, t0, t0 + CacheManager.effectiveTTL ttl⟩))).take
        ((CacheManager.cacheKeysOf (setItem s (CacheManager.cacheKey key)
          (CacheManager.encodeCacheItem
            ⟨v, t0, t0 + CacheManager.effectiveTTL ttl⟩))).length -
          CacheManager.cacheConfig.maxSize))
    (h01 : t0 ≤ t1) (h1 : t1 < t0 + CacheManager.effectiveTTL ttl) :
    (CacheManager.get (CacheManager.set s key v ttl t0) key t1).1 = some v := by
  have hpass : lookupStore
      (CacheManager.removeExpiredPass
        (setItem s (CacheManager.cacheKey key)
          (CacheManager.encodeCacheItem
            ⟨v, t0, t0 + CacheManager.effectiveTTL ttl⟩))
        (CacheManager.cacheKeysOf (setItem s (CacheManager.cacheKey key)
          (CacheManager.encodeCacheItem
            ⟨v, t0, t0 + CacheManager.effectiveTTL ttl⟩))) t0)
      (CacheManager.cacheKey key) = some (CacheManager.encodeCacheItem
        ⟨v, t0, t0 + CacheManager.effectiveTTL ttl⟩) :=
    lookupStore_removeExpiredPass _ _ _ _
      ⟨v, t0, t0 + CacheManager.effectiveTTL ttl⟩ t0
      (lookupStore_setItem_self _ _ _)
      (decodeCacheItem_encodeCacheItem _)
      (by show ¬ t0 > t0 + CacheManager.effectiveTTL ttl; omega)
  have hlook : lookupStore (CacheManager.set s key v ttl t0)
      (CacheManager.cacheKey key) = some (CacheManager.encodeCacheItem
        ⟨v, t0, t0 + CacheManager.effectiveTTL ttl⟩) := by
    show lookupStore (CacheManager.cleanupExpiredItems _ t0) _ = _
    simp only [CacheManager.cleanupExpiredItems]
    split
    · exact (lookupStore_multiRemoveKeys _ _ _ hsurv).trans hpass
    · exact hpass
  simp only [CacheManager.get, hlook, decodeCacheItem_encodeCacheItem]
  rw [if_neg (by omega : ¬ t1 > t0 + CacheManager.effectiveTTL ttl)]

/-- C9, witness: a fresh key written into a cache already at its 50-entry
maximum is appended last in scan order, so the size eviction (which removes
the oldest key) does not touch it, and reading it back 100 ms later (default
5-minute ttl) yields the stored value. -/
theorem set_get_roundtrip_witness :
    (CacheManager.get (CacheManager.set exFull "fresh" (Json.str "v") none 0)
      "fresh" 100).1 = some (Json.str "v") :=
  set_get_roundtrip exFull "fresh" (Json.str "v") none 0 100 (by decide)
    (by decide) (by decide)

/-- C10: `clear()` and `invalidatePattern(p)` remove only keys inside the
`cache_` namespace: every stored key that does not start with `cache_` — in
particular the offline mutation queue under `offline_queue` and the identity
cache record under `willware_auth_cache` — keeps its stored value unchanged,
for every pattern and store. -/
theorem clear_invalidatePattern_frame (s : Store) (pat k : String)
    (h : inCacheNs k = false) :
    lookupStore (CacheManager.clear s) k = lookupStore s k ∧
    lookupStore (CacheManager.invalidatePattern s pat) k = lookupStore s k := by
  constructor
  · refine lookupStore_multiRemoveKeys s _ k ?_
    intro hk
    rw [List.mem_filter] at hk
    rw [h] at hk
    exact absurd hk.2 (by simp)
  · refine lookupStore_multiRemoveKeys s _ k ?_
    intro hk
    rw [List.mem_filter] at hk
    have hk2 := hk.2
    rw [Bool.and_eq_true] at hk2
    rw [h] at hk2
    exact absurd hk2.1 (by simp)

/-- C10, witness: on a store holding the offline queue, the identity cache
record and one `cache_` entry for employee `emp1`, both `clear()` and
`invalidatePattern("emp1")` leave `offline_queue` and `willware_auth_cache`
untouched. -/
theorem clear_invalidatePattern_frame_witness :
    lookupStore (CacheManager.clear exFrame) "offline_queue" =
        lookupStore exFrame "offline_queue" ∧
      lookupStore (CacheManager.invalidatePattern exFrame "emp1")
          "willware_auth_cache" =
        lookupStore exFrame "willware_auth_cache" :=
  ⟨(clear_invalidatePattern_frame exFrame "emp1" "offline_queue"
      (by decide)).1,
   (clear_invalidatePattern_frame exFrame "emp1" "willware_auth_cache"
      (by decide)).2⟩

/-- C4, counterexample: with no stored user profile (`getStoredUser()` null),
`backgroundAuthVerification` returns false before any network request, even
though the server would accept the token — so "false only on an explicit
server rejection" fails. -/
theorem backgroundAuthVerification_false_without_stored_user :
    AuthOptimizer.backgroundAuthVerification none
      (AuthOptimizer.VerifyFetchOutcome.response true) = false :=
  rfl

/-- C4, amended: when a stored user profile is available,
`backgroundAuthVerification(token)` returns true on an HTTP success and on
any network failure or timeout, and false exactly on a non-success HTTP
response; when no stored user profile is available it returns false without
contacting the server. -/
theorem backgroundAuthVerification_spec (u : AuthOptimizer.StoredUserData)
    (o : AuthOptimizer.VerifyFetchOutcome) :
    (AuthOptimizer.backgroundAuthVerification (some u) o = true ↔
      o ≠ AuthOptimizer.VerifyFetchOutcome.response false) ∧
    AuthOptimizer.backgroundAuthVerification none o = false := by
  refine ⟨?_, rfl⟩
  cases o with
  | response ok => cases ok <;> simp [AuthOptimizer.backgroundAuthVerification]
  | networkFailure => simp [AuthOptimizer.backgroundAuthVerification]

/-- C6: a mutation enqueued with `attemptCount` 0 whose executor fails on
every attempt has its count incremented by each failed `processQueue` pass
(one attempt per pass); the third failed attempt brings the count to the
maximum 3, upon which the item is removed, the queue length becomes 0, and a
further pass makes no attempt at all — for every id, endpoint, verb, payload
and enqueue time. -/
theorem queue_abandons_after_third_failed_attempt (id endpoint : String)
    (m : OfflineManager.HttpMethod) (p : Option Json) (now : Int) :
    let st0 := OfflineManager.addToQueue ⟨[], false⟩ id endpoint m p now
    let failing := fun (_ : OfflineManager.QueueItem) => false
    let r1 := OfflineManager.processQueue st0 failing
    let r2 := OfflineManager.processQueue r1.1 failing
    let r3 := OfflineManager.processQueue r2.1 failing
    (r1.1.queue = [⟨id, endpoint, m, p, now, 1⟩] ∧ r1.2 = 1) ∧
      (r2.1.queue = [⟨id, endpoint, m, p, now, 2⟩] ∧ r2.2 = 1) ∧
      (r3.1.queue = [] ∧ OfflineManager.getQueueLength r3.1 = 0 ∧ r3.2 = 1) ∧
      (∀ exec : OfflineManager.QueueItem → Bool,
        (OfflineManager.processQueue r3.1 exec).2 = 0) :=
  ⟨⟨rfl, rfl⟩, ⟨rfl, rfl⟩, ⟨rfl, rfl, rfl⟩, fun _ => rfl⟩

/-- C5: when the check-in/check-out mutation fails on both `withRetry`
attempts, `handleCheckInOut` surfaces exactly the error and mutates no local
state: the durable store (hence the cached timelog) and the displayed
employee details are exactly what they were before the call. -/
theorem checkInOut_failure_preserves_state (uid today : String)
    (srv : Dashboard.ServerModel) (st : Dashboard.DashState) (now : Int)
    (e : String)
    (hfail : (Dashboard.withRetry
      (if Dashboard.isCurrentlyCheckedIn st.employeeDetails today
       then srv.checkOut else srv.checkIn) 2).1 = Except.error e) :
    (Dashboard.handleCheckInOut (some uid) today srv st now).state = st ∧
    (Dashboard.handleCheckInOut (some uid) today srv st now).toasts =
      [Dashboard.Toast.error e] := by
  constructor <;> simp [Dashboard.handleCheckInOut, hfail]

/-- C5, witness: against a server that fails every request, a check-in from
an empty dashboard leaves the state untouched and surfaces the network
error. -/
theorem checkInOut_failure_preserves_state_witness :
    (Dashboard.handleCheckInOut (some "emp1") "28/10/2025" srvDown
        ⟨[], none⟩ 0).state = (⟨[], none⟩ : Dashboard.DashState) ∧
      (Dashboard.handleCheckInOut (some "emp1") "28/10/2025" srvDown
        ⟨[], none⟩ 0).toasts =
        [Dashboard.Toast.error "Network request failed"] :=
  checkInOut_failure_preserves_state "emp1" "28/10/2025" srvDown ⟨[], none⟩ 0
    "Network request failed" rfl

/-- The manual-refresh preload on a store without the employee's cache entry
displays exactly the settled outcome of the server `/view` fetch. -/
theorem preload_miss_displays_view (uid : String)
    (srv : Dashboard.ServerModel) (store : Store) (now : Int)
    (h : lookupStore store
      (CacheManager.cacheKey ("employee_view_" ++ uid)) = none) :
    (Dashboard.preloadDashboardData uid srv store now).2 =
      Dashboard.exceptToOption srv.view := by
  simp only [Dashboard.preloadDashboardData, CacheManager.getOrSet,
    CacheManager.get, h]
  cases srv.view <;> rfl

/-- `forceRefreshAfterCheckInOut` always displays the freshly fetched server
view: it removes the employee's cache entry, so the following `getOrSet`
cannot serve a cached value. -/
theorem forceRefresh_displays_view (uid : String)
    (srv : Dashboard.ServerModel) (st : Dashboard.DashState) (now : Int) :
    (Dashboard.forceRefreshAfterCheckInOut uid srv st now).employeeDetails =
      Dashboard.exceptToOption srv.view :=
  preload_miss_displays_view uid srv _ now (lookupStore_removeKey_self _ _)

/-- C1: after a successful check-in/check-out mutation (a response with a
message), the displayed employee record is exactly the settled outcome of the
forced re-fetch of the employee's timelog from the server — independent of
the previously displayed local state, so no locally synthesized patch and no
mix of optimistic and server-confirmed fields is ever shown. -/
theorem checkInOut_success_displays_refetched_view (uid today : String)
    (srv : Dashboard.ServerModel) (st : Dashboard.DashState) (now : Int)
    (response : Json)
    (hok : (Dashboard.withRetry
      (if Dashboard.isCurrentlyCheckedIn st.employeeDetails today
       then srv.checkOut else srv.checkIn) 2).1 = Except.ok response)
    (hmsg : (Dashboard.jsTruthy response &&
      Dashboard.jsTruthyOpt (Dashboard.jsGet response "message")) = true) :
    (Dashboard.handleCheckInOut (some uid) today srv st now).state.employeeDetails =
      Dashboard.exceptToOption srv.view := by
  simp only [Dashboard.handleCheckInOut, hok, hmsg, if_true]
  exact forceRefresh_displays_view uid srv st now

/-- C1, witness: on a server whose check-in succeeds at once and whose
re-fetch returns a checked-in timelog, the dashboard displays exactly that
re-fetched view. -/
theorem checkInOut_success_displays_refetched_view_witness :
    (Dashboard.handleCheckInOut (some "emp1") "28/10/2025" srvOk
        ⟨[], none⟩ 0).state.employeeDetails =
      Dashboard.exceptToOption srvOk.view :=
  checkInOut_success_displays_refetched_view "emp1" "28/10/2025" srvOk
    ⟨[], none⟩ 0 (.obj [("message", .str "Checked in")]) rfl rfl

/-- C3 (code bug): `handleCheckInOut` consults no in-flight guard, so a
second tap landing while the first mutation is pending observes the same
state and submits again — two mutation requests reach the server, where the
claim requires the second invocation to be rejected or ignored.  Concretely:
user `emp1`, no record for today, both taps resolve their single attempt
successfully — 2 submissions instead of at most 1. -/
theorem double_tap_double_submits :
    Dashboard.twoTapSubmissions (some "emp1") "28/10/2025" srvOk
      ⟨[], none⟩ 0 = 2 :=
  rfl

end Willware
